import Mathlib

/-!
Shallow embedding of the strava-stats-generator overlay editor and its helpers.

Numbers are modelled as exact rationals (`ℚ`); JavaScript `Math.round` is
half-up rounding `⌊x + 1/2⌋`, `Math.floor` is `⌊x⌋`.  Optional numeric
activity fields are `Option ℚ`, with JavaScript truthiness mapping `none`
(absent / undefined) and `some 0` to false.  Environment capabilities that
cannot be embedded (canvas `measureText`, JS number-to-string conversion,
`Date` formatting) are abstract function parameters.
-/

namespace StravaGen

/-- JavaScript `Math.round`: half-up rounding, `⌊x + 1/2⌋`. -/
def jsRound (x : ℚ) : ℤ := ⌊x + 1/2⌋

/-- JavaScript truthiness of an optional numeric field: `undefined` and `0`
are falsy, every other number is truthy. -/
def jsTruthy (o : Option ℚ) : Bool :=
  match o with
  | none => false
  | some v => v != 0

/-- JavaScript `String.prototype.padStart(2, '0')`. -/
def padStart2 (s : String) : String :=
  if s.length < 2 then String.mk (List.replicate (2 - s.length) '0') ++ s else s

/-- Character-list splitter underlying `jsSplit`; keeps empty fields, so
splitting `" y"` on a space yields `["", "y"]` exactly as in JavaScript. -/
def splitChar (c : Char) : List Char → List (List Char)
  | [] => [[]]
  | x :: xs =>
    if x = c then [] :: splitChar c xs
    else
      match splitChar c xs with
      | [] => [[x]]
      | l :: ls => (x :: l) :: ls

/-- JavaScript `String.prototype.split` with a single-character separator. -/
def jsSplit (s : String) (c : Char) : List String :=
  (splitChar c s.data).map String.mk

/-- Numeric value of a decimal digit character, `none` otherwise. -/
def digitVal (c : Char) : Option ℕ :=
  if '0' ≤ c ∧ c ≤ '9' then some (c.toNat - '0'.toNat) else none

/-- Accumulating decimal parser over a character list; fails on the first
non-digit character. -/
def parseDigits : List Char → Option ℕ → Option ℕ
  | [], acc => acc
  | c :: cs, acc =>
    match digitVal c, acc with
    | some d, some n => parseDigits cs (some (10 * n + d))
    | some d, none => parseDigits cs (some d)
    | none, _ => none

/-- JavaScript `Number(s)` restricted to the nonnegative decimal-integer
literals that aspect-ratio components are made of; `none` models `NaN`
(non-numeric or empty input). -/
def jsNumber (s : String) : Option ℚ :=
  match parseDigits s.data none with
  | some n => some (n : ℚ)
  | none => none

/-! Embedding of `formatPace` from `src/app/lib/strava.ts`.  The `number`
argument is `Option ℚ`: `none` models a missing (`undefined`) speed, which the
guard `!speedInMetersPerSecond` treats like `0`. -/

/-- Pace formatter from `src/app/lib/strava.ts` (`formatPace`): zero or
missing speed yields the sentinel `"-"`; otherwise minutes/seconds of
`1000 / (speed * 60)` rendered as `MM:SS/km`. -/
def formatPace (speed : Option ℚ) : String :=
  match speed with
  | none => "-"
  | some s =>
    if s = 0 then "-"
    else
      let paceInMinPerKm := 1000 / (s * 60)
      let minutes := ⌊paceInMinPerKm⌋
      let seconds := jsRound ((paceInMinPerKm - minutes) * 60)
      toString minutes ++ ":" ++ padStart2 (toString seconds) ++ "/km"

/-- JavaScript remainder `a % b` for the nonnegative operands used by
`formattedMovingTime`. -/
def jsMod (a b : ℚ) : ℚ := a - b * ⌊a / b⌋

/-- Moving-time formatter from `src/app/utils/formatters.ts`
(`formattedMovingTime`): `"{h}h{m}m"` when at least 60 minutes, else
`"{m}min"`.  `numToString` abstracts JS number-to-string conversion. -/
def formattedMovingTime (numToString : ℚ → String) (movingTime : ℚ) : String :=
  if 60 ≤ movingTime then
    toString ⌊movingTime / 60⌋ ++ "h" ++ numToString (jsMod movingTime 60) ++ "m"
  else
    numToString movingTime ++ "min"

/-- Activity record shape from `src/app/lib/strava.ts` (`StravaActivity`),
restricted to the fields the editor reads.  Optional numeric fields are
`Option ℚ`. -/
structure StravaActivity where
  name : String
  distance : ℚ
  moving_time : ℚ
  elapsed_time : ℚ
  total_elevation_gain : ℚ
  type : String
  start_date_local : String
  average_speed : ℚ
  max_speed : ℚ
  average_pace : String
  max_pace : String
  average_heartrate : Option ℚ
  max_heartrate : Option ℚ
  suffer_score : Option ℚ
  calories : Option ℚ

/-- Stat catalog built at the top of `renderCanvas` in
`src/app/components/ImageEditor.tsx` (lines 115-144): eleven fixed
key/label entries, then each optional stat appended only when its activity
field is truthy. -/
def availableStats (activity : StravaActivity) : List (String × String) :=
  [("name", "Activity Name"),
   ("type", "Activity Type"),
   ("start_date", "Date"),
   ("distance", "Distance (km)"),
   ("moving_time", "Moving Time (min)"),
   ("elapsed_time", "Elapsed Time (min)"),
   ("average_pace", "Average Pace (min/km)"),
   ("max_pace", "Max Pace (min/km)"),
   ("average_speed", "Average Speed (km/h)"),
   ("max_speed", "Max Speed (km/h)"),
   ("total_elevation_gain", "Elevation Gain (m)")]
  ++ (if jsTruthy activity.average_heartrate then
        [("average_heartrate", "Avg Heart Rate (bpm)")] else [])
  ++ (if jsTruthy activity.max_heartrate then
        [("max_heartrate", "Max Heart Rate (bpm)")] else [])
  ++ (if jsTruthy activity.calories then [("calories", "Calories")] else [])
  ++ (if jsTruthy activity.suffer_score then [("suffer_score", "Suffer Score")] else [])

/-- Stat label table (`getStatLabel` inside `renderCanvas`,
`src/app/components/ImageEditor.tsx` lines 220-238). -/
def getStatLabel (key : String) : String :=
  match key with
  | "start_date" => "Date "
  | "distance" => "Distance "
  | "moving_time" => "Moving Time "
  | "elapsed_time" => "Total Time "
  | "average_speed" => "Avg Speed "
  | "max_speed" => "Max Speed "
  | "average_pace" => "Avg Pace "
  | "max_pace" => "Max Pace "
  | "total_elevation_gain" => "Elevation "
  | "average_heartrate" => "Avg HR "
  | "max_heartrate" => "Max HR "
  | "suffer_score" => "Suffer Score "
  | "calories" => "Calories "
  | "type" => "Activity "
  | k => k

/-- Stat value table (`getStatValue` inside `renderCanvas`,
`src/app/components/ImageEditor.tsx` lines 240-260).  `numToString`
abstracts JS number-to-string conversion and `fdate` abstracts the
`formattedDate` helper (which depends on the JS `Date` object). -/
def getStatValue (numToString : ℚ → String) (fdate : String → String)
    (activity : StravaActivity) (key : String) : String :=
  match key with
  | "start_date" => fdate activity.start_date_local
  | "distance" => numToString activity.distance ++ "km"
  | "moving_time" => formattedMovingTime numToString activity.moving_time
  | "elapsed_time" => formattedMovingTime numToString activity.elapsed_time
  | "average_speed" => numToString activity.average_speed ++ "km/h"
  | "max_speed" => numToString activity.max_speed ++ "km/h"
  | "average_pace" => activity.average_pace
  | "max_pace" => activity.max_pace
  | "total_elevation_gain" => numToString activity.total_elevation_gain ++ "m"
  | "average_heartrate" =>
    match activity.average_heartrate with
    | some v => if v != 0 then toString (jsRound v) ++ " bpm" else ""
    | none => ""
  | "max_heartrate" =>
    match activity.max_heartrate with
    | some v => if v != 0 then toString (jsRound v) ++ " bpm" else ""
    | none => ""
  | "suffer_score" =>
    match activity.suffer_score with
    | some v => if v != 0 then numToString v else ""
    | none => ""
  | "calories" =>
    match activity.calories with
    | some v => if v != 0 then numToString v else ""
    | none => ""
  | "type" => activity.type
  | _ => ""

/-- Result of the aspect-ratio crop computation: destination canvas size and
the source sampling rectangle passed to `drawImage`. -/
structure CropRect where
  canvasW : ℚ
  canvasH : ℚ
  srcX : ℚ
  srcY : ℚ
  srcW : ℚ
  srcH : ℚ

/-- Cover-crop computation of `renderCanvas` in
`src/app/components/ImageEditor.tsx` (lines 154-182, the non-original
branch): choose canvas dimensions from the target ratio `t`, then derive the
source sampling rectangle via the cover scale factor.  The vertical-offset
slider value is not read anywhere in this computation. -/
def editorCoverCrop (iw ih t : ℚ) : CropRect :=
  let chFromWidth := iw / t
  let cw := if chFromWidth ≤ ih then iw else ih * t
  let ch := if chFromWidth ≤ ih then chFromWidth else ih
  let scale := max (cw / iw) (ch / ih)
  let srcW := cw / scale
  let srcH := ch / scale
  { canvasW := cw, canvasH := ch
    srcX := (iw - srcW) / 2, srcY := (ih - srcH) / 2
    srcW := srcW, srcH := srcH }

/-- Ratio-string parsing in `renderCanvas` of
`src/app/components/ImageEditor.tsx` (line 158):
`aspectRatio.split(':').map(Number)` destructured into numerator and
denominator, with no defaulting of either component. -/
def editorRatioParts (s : String) : Option ℚ × Option ℚ :=
  match jsSplit s ':' with
  | [] => (none, none)
  | [a] => (jsNumber a, none)
  | a :: b :: _ => (jsNumber a, jsNumber b)

/-- Ratio-component resolution in the legacy editor variant
(`src/unnamed/part_002` lines 110-112): `Number(part) || 1`, so a missing,
non-numeric (NaN) or zero component falls back to `1`. -/
def part002RatioComponent (o : Option ℚ) : ℚ :=
  match o with
  | none => 1
  | some v => if v = 0 then 1 else v

/-- Vertical source offset of the legacy editor variant
(`src/unnamed/part_002` lines 114-135): when the image is at least as tall
as the target ratio demands and strictly taller than the target crop,
`sourceY = (imageHeight - targetHeight) * offset / 100`; otherwise 0. -/
def part002SourceY (iw ih t offset : ℚ) : ℚ :=
  let currentR := iw / ih
  if t < currentR then 0
  else
    let targetHeight := iw / t
    if targetHeight < ih then (ih - targetHeight) * offset / 100 else 0

/-- Resolved layout geometry (all values are whole pixels produced by
`Math.round`). -/
structure OverlayGeometry where
  fontSize : ℤ
  minFontSize : ℤ
  padding : ℤ
  lineHeight : ℤ
  headerHeight : ℤ

/-- Font size and proportional spacing from `renderCanvas` in
`src/app/components/ImageEditor.tsx` (lines 190-204, repeated verbatim in
`handlePositionChange`, `startDragging` and `dragStats`): base size is
`round(canvasHeight * percent/100)`, clamped from below by the size a 600px
tall canvas would get; padding (base 20), line height (base 10 extra) and
header height (base 14 extra) scale with `fontSize / minFontSize`. -/
def resolveGeometry (canvasHeight fontSizePercent : ℚ) : OverlayGeometry :=
  let baseSize := jsRound (canvasHeight * (fontSizePercent / 100))
  let minFontSize := jsRound (600 * (fontSizePercent / 100))
  let fontSize := max minFontSize baseSize
  let paddingScale := (fontSize : ℚ) / (minFontSize : ℚ)
  { fontSize := fontSize
    minFontSize := minFontSize
    padding := jsRound (20 * paddingScale)
    lineHeight := fontSize + jsRound (10 * paddingScale)
    headerHeight := fontSize + jsRound (14 * paddingScale) }

/-- Greedy word-wrap loop of `renderCanvas` in
`src/app/components/ImageEditor.tsx` (lines 297-317 and again 371-391):
words are appended to the current line; when the measured candidate
overflows `maxW` and the word index is positive, the current line is
committed and the word starts a new line; a nonempty final line is always
committed. -/
def wrapAux (measure : String → ℚ) (maxW : ℚ) :
    List String → ℕ → String → List String → List String
  | [], _, line, acc => if line = "" then acc.reverse else (line :: acc).reverse
  | w :: ws, i, line, acc =>
    let testLine := line ++ (if line = "" then "" else " ") ++ w
    if maxW < measure testLine ∧ 0 < i then
      wrapAux measure maxW ws (i + 1) w (line :: acc)
    else
      wrapAux measure maxW ws (i + 1) testLine acc

/-- Title word-wrap: split the title on spaces and run the greedy loop
starting from an empty line at word index 0. -/
def wrapLines (measure : String → ℚ) (maxW : ℚ) (title : String) : List String :=
  wrapAux measure maxW (jsSplit title ' ') 0 "" []

/-- Concatenation of lines with single spaces (the reading used to compare a
wrap result with the original word sequence). -/
def joinSp : List String → String
  | [] => ""
  | [w] => w
  | w :: v :: ws => w ++ " " ++ joinSp (v :: ws)

/-- Title line count from `renderCanvas` in
`src/app/components/ImageEditor.tsx` (lines 289-320): `titleLines` starts at
1 and is replaced by the greedy wrap line count only when `"name"` is among
the selected stats. -/
def titleLineCount (measure : String → ℚ) (availableWidth : ℚ)
    (activityName : String) (selectedStats : List String) : ℕ :=
  if "name" ∈ selectedStats then (wrapLines measure availableWidth activityName).length
  else 1

/-- Overlay height formula of `renderCanvas` in
`src/app/components/ImageEditor.tsx` (lines 322-325):
`padding*2 + headerHeight + (selected.length - (name selected ? 1 : 0)) *
lineHeight + titleLines * lineHeight`. -/
def overlayHeight (g : OverlayGeometry) (measure : String → ℚ)
    (availableWidth : ℚ) (activityName : String) (selectedStats : List String) : ℤ :=
  g.padding * 2 + g.headerHeight +
    ((selectedStats.length : ℤ) - (if "name" ∈ selectedStats then 1 else 0)) * g.lineHeight +
    (titleLineCount measure availableWidth activityName selectedStats : ℤ) * g.lineHeight

/-- Minimum overlay height used by `dragStats` in
`src/app/components/ImageEditor.tsx` (line 704): a single padding plus
header plus one line per selected stat. -/
def dragMinHeight (g : OverlayGeometry) (numStats : ℕ) : ℤ :=
  g.padding + g.headerHeight + (numStats : ℤ) * g.lineHeight

/-- Effective overlay width used by `dragStats`
(`src/app/components/ImageEditor.tsx` line 707): the stored width capped at
`canvasWidth - 2 * padding`. -/
def dragActualWidth (g : OverlayGeometry) (canvasW storedW : ℚ) : ℚ :=
  min storedW (canvasW - 2 * (g.padding : ℚ))

/-- Pointer-move position update of `dragStats` in
`src/app/components/ImageEditor.tsx` (lines 689-722): geometry is
recomputed from the canvas height and font percent, then the pointer
position minus the stored grab offset is clamped to
`[padding, max(0, canvasW - actualWidth - padding)]` horizontally and
`[padding, max(0, canvasH - minHeight - padding)]` vertically (lower bound
applied second, so it wins when the interval is empty). -/
def dragStats (canvasW canvasH fontSizePercent : ℚ) (numStats : ℕ)
    (storedW pointerX pointerY dragOffsetX dragOffsetY : ℚ) : ℚ × ℚ :=
  let g := resolveGeometry canvasH fontSizePercent
  let minHeight := dragMinHeight g numStats
  let actualStatsWidth := dragActualWidth g canvasW storedW
  let maxX := max 0 (canvasW - actualStatsWidth - (g.padding : ℚ))
  let maxY := max 0 (canvasH - (minHeight : ℚ) - (g.padding : ℚ))
  let newX := max (g.padding : ℚ) (min maxX (pointerX - dragOffsetX))
  let newY := max (g.padding : ℚ) (min maxY (pointerY - dragOffsetY))
  (newX, newY)

/-- Outcome environment for one GET request to
`src/app/api/strava/activities/route.ts`: whether each network step would
succeed, expressed as `Option` results (`none` models a thrown error). -/
structure RouteEnv (α τ : Type) where
  firstFetch : Option α
  refresh : Option τ
  retryFetch : τ → Option α

/-- Response shape of the activities route: activities payload, 401
unauthorized, or the terminal 500 error. -/
inductive RouteResponse (α : Type) where
  | ok (activities : α)
  | unauthorized
  | serverError

/-- Call counts observed while serving one request. -/
structure RouteTrace where
  fetchCalls : ℕ
  refreshCalls : ℕ

/-- Control flow of `GET` in `src/app/api/strava/activities/route.ts`
(lines 4-56): missing cookies give 401; otherwise try the fetch, and on
failure refresh once and retry once, any failure in that fallback reaching
the outer catch as a 500. -/
def routeGET {α τ : Type} (hasTokens : Bool) (env : RouteEnv α τ) :
    RouteResponse α × RouteTrace :=
  if hasTokens then
    match env.firstFetch with
    | some activities => (.ok activities, ⟨1, 0⟩)
    | none =>
      match env.refresh with
      | none => (.serverError, ⟨1, 1⟩)
      | some tok =>
        match env.retryFetch tok with
        | some activities => (.ok activities, ⟨2, 1⟩)
        | none => (.serverError, ⟨2, 1⟩)
  else (.unauthorized, ⟨0, 0⟩)

/-! Theorems.  Each claim of the specification review gets one main theorem;
shared helper lemmas precede them. -/

/-- C3: evaluation of the pace formatter at speed 2.78 m/s (a positive
float-representable speed): the pace is 2500/417 ≈ 5.9952 min/km, the
seconds component rounds to 60, and the formatter prints `"5:60/km"`,
contradicting the claimed `SS ∈ [00,59]` bound (the zero/missing-speed
sentinel behaviour is untouched). -/
theorem formatPace_sixty_seconds : formatPace (some (139/50)) = "5:60/km" := by
  have h0 : ¬((139 : ℚ)/50 = 0) := by norm_num
  have h1 : (1000 : ℚ) / (139/50 * 60) = 2500/417 := by norm_num
  have h2 : ⌊(2500 : ℚ)/417⌋ = (5 : ℤ) := by norm_num
  have h3 : jsRound (((2500 : ℚ)/417 - ((5 : ℤ) : ℚ)) * 60) = 60 := by
    norm_num [jsRound]
  simp only [formatPace, h1, h2, h3, if_neg h0]
  decide

/-- C10: a present-but-zero optional numeric field (average heart rate, max
heart rate, calories, suffer score) is indistinguishable from an absent one:
the stat catalog is identical and the rendered value string is empty in both
cases. -/
theorem zero_optional_fields_invisible (a : StravaActivity)
    (numToString : ℚ → String) (fdate : String → String) :
    (availableStats { a with average_heartrate := some 0 }
        = availableStats { a with average_heartrate := none }
      ∧ getStatValue numToString fdate { a with average_heartrate := some 0 }
          "average_heartrate" = ""
      ∧ getStatValue numToString fdate { a with average_heartrate := none }
          "average_heartrate" = "")
    ∧ (availableStats { a with max_heartrate := some 0 }
        = availableStats { a with max_heartrate := none }
      ∧ getStatValue numToString fdate { a with max_heartrate := some 0 }
          "max_heartrate" = ""
      ∧ getStatValue numToString fdate { a with max_heartrate := none }
          "max_heartrate" = "")
    ∧ (availableStats { a with calories := some 0 }
        = availableStats { a with calories := none }
      ∧ getStatValue numToString fdate { a with calories := some 0 }
          "calories" = ""
      ∧ getStatValue numToString fdate { a with calories := none }
          "calories" = "")
    ∧ (availableStats { a with suffer_score := some 0 }
        = availableStats { a with suffer_score := none }
      ∧ getStatValue numToString fdate { a with suffer_score := some 0 }
          "suffer_score" = ""
      ∧ getStatValue numToString fdate { a with suffer_score := none }
          "suffer_score" = "") := by
  refine ⟨⟨?_, ?_, ?_⟩, ⟨?_, ?_, ?_⟩, ⟨?_, ?_, ?_⟩, ⟨?_, ?_, ?_⟩⟩ <;>
    simp [availableStats, jsTruthy, getStatValue]

/-- C4 counterexample: on a 650px-tall canvas at ratio 1 percent the code
resolves font size 7 (it uses `Math.round`, i.e. half-up rounding), while
the claimed `max(floor(h*r/100), floor(600*r/100))` formula gives 6. -/
theorem fontSize_floor_counterexample :
    (resolveGeometry 650 1).fontSize
        ≠ max ⌊(650 : ℚ) * ((1 : ℚ)/100)⌋ ⌊(600 : ℚ) * ((1 : ℚ)/100)⌋
      ∧ (resolveGeometry 650 1).fontSize = 7
      ∧ max ⌊(650 : ℚ) * ((1 : ℚ)/100)⌋ ⌊(600 : ℚ) * ((1 : ℚ)/100)⌋ = 6 := by
  refine ⟨?_, ?_, ?_⟩ <;> norm_num [resolveGeometry, jsRound]

/-- C4 amended: the resolved font size equals
`max(round(h*r/100), round(600*r/100))` with half-up rounding; it is still
never smaller than `floor(600*r/100)`, and the h = 1000, r = 3 instance
resolves to 30. -/
theorem fontSize_round_formula :
    (∀ h r : ℚ,
        (resolveGeometry h r).fontSize
            = max (jsRound (h * (r/100))) (jsRound (600 * (r/100)))
          ∧ ⌊(600 : ℚ) * (r/100)⌋ ≤ (resolveGeometry h r).fontSize)
      ∧ (resolveGeometry 1000 3).fontSize = 30 := by
  constructor
  · intro h r
    constructor
    · simp [resolveGeometry, max_comm]
    · have h1 : ⌊(600 : ℚ) * (r/100)⌋ ≤ jsRound (600 * (r/100)) := by
        apply Int.floor_le_floor
        linarith
      calc ⌊(600 : ℚ) * (r/100)⌋ ≤ jsRound (600 * (r/100)) := h1
        _ ≤ (resolveGeometry h r).fontSize := by simp [resolveGeometry]
  · norm_num [resolveGeometry, jsRound]

/-- C7 counterexample: the live editor performs no denominator defaulting:
parsing the ratio string `"16:0"` leaves denominator 0, not 1. -/
theorem zero_denominator_not_defaulted :
    (editorRatioParts "16:0").2 = some 0 ∧ (editorRatioParts "16:0").2 ≠ some 1 := by
  constructor <;> decide

/-- C7 amended: only the legacy editor variant defaults ratio components —
there a zero or missing component resolves to 1 and the resolved component
is never 0, so its ratio division is never by zero; the live editor parses
each of the five ratio strings it can actually receive into a positive
numerator and denominator, whose quotient is a positive (finite) ratio. -/
theorem ratio_component_defaulting :
    (∀ o : Option ℚ, part002RatioComponent o ≠ 0)
      ∧ part002RatioComponent (some 0) = 1
      ∧ part002RatioComponent none = 1
      ∧ editorRatioParts "9:16" = (some 9, some 16)
      ∧ editorRatioParts "16:9" = (some 16, some 9)
      ∧ editorRatioParts "3:4" = (some 3, some 4)
      ∧ editorRatioParts "4:3" = (some 4, some 3)
      ∧ editorRatioParts "1:1" = (some 1, some 1)
      ∧ ∀ n d : ℚ, 0 < n → 0 < d → 0 < n / d := by
  refine ⟨?_, by decide, by decide, by decide, by decide, by decide, by decide,
    by decide, ?_⟩
  · intro o
    match o with
    | none => simp [part002RatioComponent]
    | some v =>
      simp only [part002RatioComponent]
      split
      · norm_num
      · assumption
  · intro n d hn hd
    exact div_pos hn hd

/-- C7 witness: the defaulted component at a zero input is nonzero (indeed
1), and the quotient of the live parse of "9:16" is positive. -/
theorem ratio_component_defaulting_witness :
    part002RatioComponent (some 0) ≠ 0 ∧ (0 : ℚ) < 9 / 16 :=
  ⟨ratio_component_defaulting.1 (some 0),
    ratio_component_defaulting.2.2.2.2.2.2.2.2 9 16 (by norm_num) (by norm_num)⟩

/-- C1: on a 1000x2000 image cropped to ratio 1:1 the live editor samples
from `srcY = 500` (always centered — the vertical-offset slider value is
never read by its crop computation), while the legacy variant implements the
specified behaviour: offset 0 gives source y 0 (top), offset 100 gives 1000
(bottom), offset 50 gives 500 (center).  At offset 0 the claimed formula
`(sourceHeight - cropHeight) * offset/100` yields 0, not the live 500. -/
theorem verticalOffset_dead_in_live_crop :
    (editorCoverCrop 1000 2000 1).srcY = 500
      ∧ part002SourceY 1000 2000 1 0 = 0
      ∧ part002SourceY 1000 2000 1 100 = 1000
      ∧ part002SourceY 1000 2000 1 50 = 500
      ∧ ((2000 : ℚ) - 1000) * ((0 : ℚ)/100) = 0 := by
  refine ⟨?_, ?_, ?_, ?_, ?_⟩ <;>
    norm_num [editorCoverCrop, part002SourceY, max_def]

/-- C9: when the first activities fetch fails, the route performs exactly one
token refresh; if the refresh succeeds there is exactly one retry (two fetch
calls in total); if the refresh fails the response is the terminal 500 with
no retry; if the retry fails the response is the terminal 500; never more
than two fetch calls or one refresh. -/
theorem activities_refresh_retry_once {α τ : Type} (env : RouteEnv α τ)
    (hfail : env.firstFetch = none) :
    (routeGET true env).2.refreshCalls = 1
      ∧ (routeGET true env).2.fetchCalls ≤ 2
      ∧ (∀ t, env.refresh = some t → (routeGET true env).2.fetchCalls = 2)
      ∧ (env.refresh = none →
          (routeGET true env).1 = RouteResponse.serverError
            ∧ (routeGET true env).2.fetchCalls = 1)
      ∧ (∀ t, env.refresh = some t → env.retryFetch t = none →
          (routeGET true env).1 = RouteResponse.serverError) := by
  simp only [routeGET, hfail, if_true]
  match hr : env.refresh with
  | none => simp
  | some tok =>
    match hrt : env.retryFetch tok with
    | none => simp [hrt]
    | some acts => simp [hrt]

/-- C9 witness: a concrete environment whose first fetch fails, with a
succeeding refresh and a failing retry. -/
theorem activities_refresh_retry_once_witness :
    ((⟨none, some 7, fun _ => none⟩ : RouteEnv ℕ ℕ).firstFetch = none)
      ∧ ((routeGET true (⟨none, some 7, fun _ => none⟩ : RouteEnv ℕ ℕ)).2.refreshCalls = 1
        ∧ (routeGET true (⟨none, some 7, fun _ => none⟩ : RouteEnv ℕ ℕ)).2.fetchCalls ≤ 2
        ∧ (∀ t, (⟨none, some 7, fun _ => none⟩ : RouteEnv ℕ ℕ).refresh = some t →
            (routeGET true (⟨none, some 7, fun _ => none⟩ : RouteEnv ℕ ℕ)).2.fetchCalls = 2)
        ∧ ((⟨none, some 7, fun _ => none⟩ : RouteEnv ℕ ℕ).refresh = none →
            (routeGET true (⟨none, some 7, fun _ => none⟩ : RouteEnv ℕ ℕ)).1
                = RouteResponse.serverError
              ∧ (routeGET true (⟨none, some 7, fun _ => none⟩ : RouteEnv ℕ ℕ)).2.fetchCalls = 1)
        ∧ (∀ t, (⟨none, some 7, fun _ => none⟩ : RouteEnv ℕ ℕ).refresh = some t →
            (⟨none, some 7, fun _ => none⟩ : RouteEnv ℕ ℕ).retryFetch t = none →
            (routeGET true (⟨none, some 7, fun _ => none⟩ : RouteEnv ℕ ℕ)).1
                = RouteResponse.serverError)) :=
  ⟨rfl, activities_refresh_retry_once (⟨none, some 7, fun _ => none⟩ : RouteEnv ℕ ℕ) rfl⟩

/-- C2: for positive source dimensions and a target ratio given by positive
numerator and denominator, the live cover crop samples a source rectangle
whose width/height quotient is exactly the target ratio (exact rational
arithmetic, hence within any floating-point tolerance) and which lies fully
inside the source bitmap. -/
theorem cover_crop_ratio_and_bounds (iw ih num den : ℚ)
    (hiw : 0 < iw) (hih : 0 < ih) (hn : 0 < num) (hd : 0 < den) :
    (editorCoverCrop iw ih (num/den)).srcW / (editorCoverCrop iw ih (num/den)).srcH
        = num / den
      ∧ 0 ≤ (editorCoverCrop iw ih (num/den)).srcX
      ∧ 0 ≤ (editorCoverCrop iw ih (num/den)).srcY
      ∧ (editorCoverCrop iw ih (num/den)).srcX + (editorCoverCrop iw ih (num/den)).srcW ≤ iw
      ∧ (editorCoverCrop iw ih (num/den)).srcY + (editorCoverCrop iw ih (num/den)).srcH
          ≤ ih := by
  have ht : 0 < num / den := div_pos hn hd
  set t := num / den with htdef
  simp only [editorCoverCrop]
  by_cases hc : iw / t ≤ ih
  · simp only [if_pos hc]
    have hs : max (iw / iw) (iw / t / ih) = 1 := by
      rw [div_self (ne_of_gt hiw)]
      exact max_eq_left ((div_le_one hih).mpr hc)
    have hch : 0 ≤ iw / t := le_of_lt (div_pos hiw ht)
    rw [hs]
    simp only [div_one]
    refine ⟨?_, ?_, ?_, ?_, ?_⟩
    · rw [div_div_eq_mul_div, mul_comm, mul_div_assoc, div_self (ne_of_gt hiw), mul_one]
    · linarith
    · linarith
    · linarith
    · linarith
  · simp only [if_neg hc]
    have hlt : ih * t < iw := (lt_div_iff₀ ht).mp (lt_of_not_le hc)
    have hs : max (ih * t / iw) (ih / ih) = 1 := by
      rw [div_self (ne_of_gt hih)]
      exact max_eq_right (le_of_lt ((div_lt_one hiw).mpr hlt))
    have hcw : 0 ≤ ih * t := le_of_lt (mul_pos hih ht)
    rw [hs]
    simp only [div_one]
    refine ⟨?_, ?_, ?_, ?_, ?_⟩
    · rw [mul_comm, mul_div_assoc, div_self (ne_of_gt hih), mul_one]
    · linarith
    · linarith
    · linarith
    · linarith

/-- C2 witness: a 400x300 bitmap cropped to 16:9. -/
theorem cover_crop_ratio_and_bounds_witness :
    ((0 : ℚ) < 400 ∧ (0 : ℚ) < 300 ∧ (0 : ℚ) < 16 ∧ (0 : ℚ) < 9)
      ∧ ((editorCoverCrop 400 300 ((16 : ℚ)/9)).srcW
            / (editorCoverCrop 400 300 ((16 : ℚ)/9)).srcH = (16 : ℚ) / 9
        ∧ 0 ≤ (editorCoverCrop 400 300 ((16 : ℚ)/9)).srcX
        ∧ 0 ≤ (editorCoverCrop 400 300 ((16 : ℚ)/9)).srcY
        ∧ (editorCoverCrop 400 300 ((16 : ℚ)/9)).srcX
            + (editorCoverCrop 400 300 ((16 : ℚ)/9)).srcW ≤ 400
        ∧ (editorCoverCrop 400 300 ((16 : ℚ)/9)).srcY
            + (editorCoverCrop 400 300 ((16 : ℚ)/9)).srcH ≤ 300) :=
  ⟨⟨by norm_num, by norm_num, by norm_num, by norm_num⟩,
    cover_crop_ratio_and_bounds 400 300 16 9
      (by norm_num) (by norm_num) (by norm_num) (by norm_num)⟩

/-- Helper: for a font percent of at least 1 the reference (600px) font size
is positive. -/
theorem minFontSize_pos (ch r : ℚ) (hr : 1 ≤ r) :
    0 < (resolveGeometry ch r).minFontSize := by
  have h1 : (1 : ℤ) ≤ jsRound (600 * (r/100)) := by
    apply Int.le_floor.mpr
    push_cast
    linarith
  simp only [resolveGeometry]
  omega

/-- Helper: the resolved font size is never below the reference font size. -/
theorem min_le_fontSize (ch r : ℚ) :
    (resolveGeometry ch r).minFontSize ≤ (resolveGeometry ch r).fontSize := by
  simp [resolveGeometry]

/-- Helper: the scaled padding is at least the 20px base padding. -/
theorem padding_ge_20 (ch r : ℚ) (hr : 1 ≤ r) : 20 ≤ (resolveGeometry ch r).padding := by
  have hm : 0 < (resolveGeometry ch r).minFontSize := minFontSize_pos ch r hr
  have hf : (resolveGeometry ch r).minFontSize ≤ (resolveGeometry ch r).fontSize :=
    min_le_fontSize ch r
  have hmQ : (0 : ℚ) < ((resolveGeometry ch r).minFontSize : ℚ) := by exact_mod_cast hm
  have hscale : (1 : ℚ) ≤ ((resolveGeometry ch r).fontSize : ℚ)
      / ((resolveGeometry ch r).minFontSize : ℚ) :=
    (one_le_div hmQ).mpr (by exact_mod_cast hf)
  have h20 : (20 : ℤ) ≤ jsRound (20 * (((resolveGeometry ch r).fontSize : ℚ)
      / ((resolveGeometry ch r).minFontSize : ℚ))) := by
    apply Int.le_floor.mpr
    push_cast
    linarith
  simpa only [resolveGeometry] using h20

/-- C6 amended: every pointer move keeps the box origin clamped to
`padding ≤ x ≤ canvasW - actualWidth - padding` (hence `0 ≤ x`, since the
actual width is capped at `canvasW - 2*padding` this interval is never
empty) and `padding ≤ y`; the claimed upper bound on y holds exactly when
the canvas is tall enough (`minHeight + 2*padding ≤ canvasH`) — on shorter
canvases the lower clamp wins and y exceeds
`canvasH - minHeight - padding`. -/
theorem drag_clamp_bounds (cw ch r : ℚ) (n : ℕ) (storedW px py ox oy : ℚ)
    (hr : 1 ≤ r) :
    0 ≤ (dragStats cw ch r n storedW px py ox oy).1
      ∧ (((resolveGeometry ch r).padding : ℚ)
          ≤ (dragStats cw ch r n storedW px py ox oy).1)
      ∧ ((dragStats cw ch r n storedW px py ox oy).1
          ≤ cw - dragActualWidth (resolveGeometry ch r) cw storedW
            - ((resolveGeometry ch r).padding : ℚ))
      ∧ (((resolveGeometry ch r).padding : ℚ)
          ≤ (dragStats cw ch r n storedW px py ox oy).2)
      ∧ ((dragMinHeight (resolveGeometry ch r) n : ℚ)
            + 2 * ((resolveGeometry ch r).padding : ℚ) ≤ ch →
          0 ≤ (dragStats cw ch r n storedW px py ox oy).2
            ∧ (dragStats cw ch r n storedW px py ox oy).2
                ≤ ch - (dragMinHeight (resolveGeometry ch r) n : ℚ)
                  - ((resolveGeometry ch r).padding : ℚ)) := by
  have hp20 : (20 : ℚ) ≤ ((resolveGeometry ch r).padding : ℚ) := by
    exact_mod_cast padding_ge_20 ch r hr
  have hp0 : (0 : ℚ) ≤ ((resolveGeometry ch r).padding : ℚ) := by linarith
  have haw : dragActualWidth (resolveGeometry ch r) cw storedW
      ≤ cw - 2 * ((resolveGeometry ch r).padding : ℚ) := min_le_right _ _
  simp only [dragStats]
  have hmaxX : max 0 (cw - dragActualWidth (resolveGeometry ch r) cw storedW
      - ((resolveGeometry ch r).padding : ℚ))
      = cw - dragActualWidth (resolveGeometry ch r) cw storedW
        - ((resolveGeometry ch r).padding : ℚ) :=
    max_eq_right (by linarith)
  rw [hmaxX]
  refine ⟨?_, ?_, ?_, ?_, ?_⟩
  · exact le_trans hp0 (le_max_left _ _)
  · exact le_max_left _ _
  · exact max_le (by linarith) (min_le_left _ _)
  · exact le_max_left _ _
  · intro hch
    have hmaxY : max 0 (ch - (dragMinHeight (resolveGeometry ch r) n : ℚ)
        - ((resolveGeometry ch r).padding : ℚ))
        = ch - (dragMinHeight (resolveGeometry ch r) n : ℚ)
          - ((resolveGeometry ch r).padding : ℚ) :=
      max_eq_right (by linarith)
    rw [hmaxY]
    constructor
    · exact le_trans hp0 (le_max_left _ _)
    · exact max_le (by linarith) (min_le_left _ _)

/-- C6 witness: a tall-enough canvas where the theorem applies with font
percent 3. -/
theorem drag_clamp_bounds_witness :
    ((1 : ℚ) ≤ 3)
      ∧ (0 ≤ (dragStats 2000 1500 3 5 800 100 100 0 0).1
        ∧ (((resolveGeometry 1500 3).padding : ℚ)
            ≤ (dragStats 2000 1500 3 5 800 100 100 0 0).1)
        ∧ ((dragStats 2000 1500 3 5 800 100 100 0 0).1
            ≤ 2000 - dragActualWidth (resolveGeometry 1500 3) 2000 800
              - ((resolveGeometry 1500 3).padding : ℚ))
        ∧ (((resolveGeometry 1500 3).padding : ℚ)
            ≤ (dragStats 2000 1500 3 5 800 100 100 0 0).2)
        ∧ ((dragMinHeight (resolveGeometry 1500 3) 5 : ℚ)
              + 2 * ((resolveGeometry 1500 3).padding : ℚ) ≤ 1500 →
            0 ≤ (dragStats 2000 1500 3 5 800 100 100 0 0).2
              ∧ (dragStats 2000 1500 3 5 800 100 100 0 0).2
                  ≤ 1500 - (dragMinHeight (resolveGeometry 1500 3) 5 : ℚ)
                    - ((resolveGeometry 1500 3).padding : ℚ))) :=
  ⟨by norm_num, drag_clamp_bounds 2000 1500 3 5 800 100 100 0 0 (by norm_num)⟩

/-- C6 counterexample: on a 1000x100 canvas with five stats at font percent
3 the minimum overlay height is 192 and padding is 20, so the claimed upper
bound `y ≤ canvasH - minHeight - padding = -112` is violated: the pointer
move clamps y to 20. -/
theorem drag_clamp_y_counterexample :
    (dragStats 1000 100 3 5 800 500 500 0 0).2 = 20
      ∧ dragMinHeight (resolveGeometry 100 3) 5 = 192
      ∧ (resolveGeometry 100 3).padding = 20
      ∧ ¬((dragStats 1000 100 3 5 800 500 500 0 0).2
          ≤ 100 - (dragMinHeight (resolveGeometry 100 3) 5 : ℚ)
            - ((resolveGeometry 100 3).padding : ℚ)) := by
  refine ⟨?_, ?_, ?_, ?_⟩ <;>
    norm_num [dragStats, resolveGeometry, jsRound, dragMinHeight, dragActualWidth,
      max_def, min_def]

/-- Helper: filtering out `"name"` from a list not containing it changes
nothing. -/
theorem filter_ne_name_of_not_mem (l : List String) (hm : "name" ∉ l) :
    l.filter (fun k => k ≠ "name") = l := by
  apply List.filter_eq_self.mpr
  intro a ha
  simp only [decide_eq_true_eq]
  exact fun h => hm (h ▸ ha)

/-- Helper: in a duplicate-free list containing `"name"`, dropping it loses
exactly one element. -/
theorem length_filter_ne_name (l : List String) (hd : l.Nodup) (hm : "name" ∈ l) :
    (l.filter (fun k => k ≠ "name")).length + 1 = l.length := by
  induction l with
  | nil => cases hm
  | cons x xs ih =>
    by_cases hx : x = "name"
    · subst hx
      have hxs : "name" ∉ xs := (List.nodup_cons.mp hd).1
      rw [List.filter_cons_of_neg (by simp)]
      rw [filter_ne_name_of_not_mem xs hxs]
      simp
    · have hmem : "name" ∈ xs := by
        cases List.mem_cons.mp hm with
        | inl h => exact absurd h.symm hx
        | inr h => exact h
      rw [List.filter_cons_of_pos (by simp [hx])]
      have := ih (List.nodup_cons.mp hd).2 hmem
      simp only [List.length_cons]
      omega

/-- C5: for any duplicate-free stat selection the painted overlay height is
`2*padding + headerHeight + (number of selected non-title stats)*lineHeight
+ titleLines*lineHeight` for the geometry resolved from the canvas height
and font percent (the `"name"` key contributes only the title-line term);
in the end-to-end scenario (font ratio 3 on a 1000px canvas) the resolved
font size is 30. -/
theorem overlay_height_formula :
    (∀ (h r : ℚ) (measure : String → ℚ) (avail : ℚ) (activityName : String)
        (sel : List String), sel.Nodup →
        overlayHeight (resolveGeometry h r) measure avail activityName sel
          = 2 * (resolveGeometry h r).padding + (resolveGeometry h r).headerHeight
            + ((sel.filter (fun k => k ≠ "name")).length : ℤ)
              * (resolveGeometry h r).lineHeight
            + (titleLineCount measure avail activityName sel : ℤ)
              * (resolveGeometry h r).lineHeight)
      ∧ (resolveGeometry 1000 3).fontSize = 30 := by
  constructor
  · intro h r measure avail activityName sel hnd
    simp only [overlayHeight]
    by_cases hm : "name" ∈ sel
    · have h1 := length_filter_ne_name sel hnd hm
      simp only [if_pos hm]
      have h2 : ((sel.filter (fun k => k ≠ "name")).length : ℤ) = (sel.length : ℤ) - 1 := by
        omega
      rw [h2]
      ring
    · rw [filter_ne_name_of_not_mem sel hm]
      simp only [if_neg hm]
      ring
  · norm_num [resolveGeometry, jsRound]

/-- C5 witness: the end-to-end selection `["name","distance","average_pace"]`
on a 1000px canvas at 3 percent. -/
theorem overlay_height_formula_witness :
    (["name", "distance", "average_pace"] : List String).Nodup
      ∧ overlayHeight (resolveGeometry 1000 3) (fun s => (s.length : ℚ)) 700
          "Morning Run" ["name", "distance", "average_pace"]
        = 2 * (resolveGeometry 1000 3).padding + (resolveGeometry 1000 3).headerHeight
          + (((["name", "distance", "average_pace"] : List String).filter
                (fun k => k ≠ "name")).length : ℤ) * (resolveGeometry 1000 3).lineHeight
          + (titleLineCount (fun s => (s.length : ℚ)) 700 "Morning Run"
                ["name", "distance", "average_pace"] : ℤ)
            * (resolveGeometry 1000 3).lineHeight :=
  ⟨by decide,
    overlay_height_formula.1 1000 3 (fun s => (s.length : ℚ)) 700 "Morning Run"
      ["name", "distance", "average_pace"] (by decide)⟩

/-- Helper: a string with a nonempty left part of an append is nonempty. -/
theorem append_ne_empty_left (a b : String) (ha : a ≠ "") : a ++ b ≠ "" := by
  intro h
  apply ha
  have hlen := congrArg String.length h
  rw [String.length_append, String.length_empty] at hlen
  have ha0 : a.length = 0 := by omega
  cases a with
  | mk la =>
    rw [String.length_mk] at ha0
    have : la = [] := List.length_eq_zero.mp ha0
    subst this
    rfl

/-- Helper: the wrap loop accumulator only provides the already-committed
prefix of the output. -/
theorem wrapAux_acc_eq (m : String → ℚ) (W : ℚ) :
    ∀ (ws : List String) (i : ℕ) (line : String) (acc : List String),
      wrapAux m W ws i line acc = acc.reverse ++ wrapAux m W ws i line [] := by
  intro ws
  induction ws with
  | nil =>
    intro i line acc
    simp only [wrapAux]
    split
    · simp
    · simp
  | cons w ws ih =>
    intro i line acc
    simp only [wrapAux]
    split
    · split
      · rw [ih _ _ (line :: acc), ih _ _ [line]]
        simp
      · exact ih _ _ acc
    · split
      · rw [ih _ _ (line :: acc), ih _ _ [line]]
        simp
      · exact ih _ _ acc

/-- Helper: starting from a nonempty current line the wrap loop commits at
least one line. -/
theorem wrapAux_ne_nil (m : String → ℚ) (W : ℚ) :
    ∀ (ws : List String) (i : ℕ) (line : String), line ≠ "" →
      wrapAux m W ws i line [] ≠ [] := by
  intro ws
  induction ws with
  | nil =>
    intro i line hl
    simp only [wrapAux]
    rw [if_neg hl]
    simp
  | cons w ws ih =>
    intro i line hl
    simp only [wrapAux]
    split
    · rename_i hsep
      exact absurd hsep hl
    · split
      · rw [wrapAux_acc_eq]
        simp
      · exact ih _ _ (append_ne_empty_left _ _ (append_ne_empty_left _ _ hl))

/-- Helper: every line the wrap loop emits either fits within the width
bound or is one of the original words. -/
theorem wrapAux_mem_bound (m : String → ℚ) (W : ℚ) (Wd : List String) :
    ∀ (ws : List String) (i : ℕ) (line : String) (acc : List String),
      (∀ w ∈ ws, w ∈ Wd) → (i = 0 → line = "") →
      (m line ≤ W ∨ line ∈ Wd ∨ (line = "" ∧ i = 0)) →
      (∀ L ∈ acc, m L ≤ W ∨ L ∈ Wd) →
      ∀ L ∈ wrapAux m W ws i line acc, m L ≤ W ∨ L ∈ Wd := by
  intro ws
  induction ws with
  | nil =>
    intro i line acc hws hi0 hline hacc L hL
    simp only [wrapAux] at hL
    split at hL
    · rw [List.mem_reverse] at hL
      exact hacc L hL
    · rename_i hlne
      rw [List.mem_reverse] at hL
      cases List.mem_cons.mp hL with
      | inl h =>
        subst h
        rcases hline with h | h | h
        · exact Or.inl h
        · exact Or.inr h
        · exact absurd h.1 hlne
      | inr h => exact hacc L h
  | cons w ws ih =>
    intro i line acc hws hi0 hline hacc L hL
    simp only [wrapAux] at hL
    split at hL
    · rename_i hsep
      split at hL
      · rename_i hcond
        refine ih (i + 1) w (line :: acc) ?_ ?_ ?_ ?_ L hL
        · intro x hx
          exact hws x (List.mem_cons_of_mem _ hx)
        · intro h
          exact absurd h (Nat.succ_ne_zero i)
        · exact Or.inr (Or.inl (hws w (List.mem_cons_self w ws)))
        · intro x hx
          cases List.mem_cons.mp hx with
          | inl h =>
            subst h
            rcases hline with h | h | h
            · exact Or.inl h
            · exact Or.inr h
            · exact absurd h.2 (Nat.pos_iff_ne_zero.mp hcond.2)
          | inr h => exact hacc x h
      · rename_i hcond
        refine ih (i + 1) _ acc ?_ ?_ ?_ hacc L hL
        · intro x hx
          exact hws x (List.mem_cons_of_mem _ hx)
        · intro h
          exact absurd h (Nat.succ_ne_zero i)
        · rcases not_and_or.mp hcond with hnt | hni
          · exact Or.inl (not_lt.mp hnt)
          · subst hsep
            have htw : (("" : String) ++ "") ++ w = w := by
              rw [String.append_empty, String.empty_append]
            rw [htw]
            exact Or.inr (Or.inl (hws w (List.mem_cons_self w ws)))
    · rename_i hsep
      split at hL
      · rename_i hcond
        refine ih (i + 1) w (line :: acc) ?_ ?_ ?_ ?_ L hL
        · intro x hx
          exact hws x (List.mem_cons_of_mem _ hx)
        · intro h
          exact absurd h (Nat.succ_ne_zero i)
        · exact Or.inr (Or.inl (hws w (List.mem_cons_self w ws)))
        · intro x hx
          cases List.mem_cons.mp hx with
          | inl h =>
            subst h
            rcases hline with h | h | h
            · exact Or.inl h
            · exact Or.inr h
            · exact absurd h.1 hsep
          | inr h => exact hacc x h
      · rename_i hcond
        refine ih (i + 1) _ acc ?_ ?_ ?_ hacc L hL
        · intro x hx
          exact hws x (List.mem_cons_of_mem _ hx)
        · intro h
          exact absurd h (Nat.succ_ne_zero i)
        · rcases not_and_or.mp hcond with hnt | hni
          · exact Or.inl (not_lt.mp hnt)
          · exact absurd (hi0 (by omega)) hsep

/-- Helper: joining two nonempty line lists inserts a single separating
space. -/
theorem joinSp_append :
    ∀ (xs ys : List String), xs ≠ [] → ys ≠ [] →
      joinSp (xs ++ ys) = joinSp xs ++ " " ++ joinSp ys := by
  intro xs
  induction xs with
  | nil =>
    intro ys h hys
    exact absurd rfl h
  | cons x xs ih =>
    intro ys hxs hys
    cases xs with
    | nil =>
      cases ys with
      | nil => exact absurd rfl hys
      | cons y ys' => simp [joinSp]
    | cons x2 xs2 =>
      have hstep : joinSp ((x :: x2 :: xs2) ++ ys)
          = x ++ " " ++ joinSp ((x2 :: xs2) ++ ys) := by
        show joinSp (x :: x2 :: (xs2 ++ ys)) = _
        simp [joinSp]
      rw [hstep, ih ys (List.cons_ne_nil x2 xs2) hys]
      simp [joinSp, String.append_assoc]

/-- Helper: with a nonempty current line and nonempty remaining words, the
wrap output joins back (with single spaces) to the pending line followed by
the remaining words. -/
theorem wrapAux_joinSp (m : String → ℚ) (W : ℚ) :
    ∀ (ws : List String) (i : ℕ) (line : String), 0 < i → line ≠ "" →
      (∀ w ∈ ws, w ≠ "") →
      joinSp (wrapAux m W ws i line []) = joinSp (line :: ws) := by
  intro ws
  induction ws with
  | nil =>
    intro i line hi hl hws
    simp only [wrapAux]
    rw [if_neg hl]
    simp
  | cons w ws ih =>
    intro i line hi hl hws
    have hw : w ≠ "" := hws w (List.mem_cons_self w ws)
    have hws' : ∀ x ∈ ws, x ≠ "" := fun x hx => hws x (List.mem_cons_of_mem _ hx)
    simp only [wrapAux]
    rw [if_neg hl]
    split
    · rename_i hcond
      rw [wrapAux_acc_eq]
      have hrest : wrapAux m W ws (i + 1) w [] ≠ [] := wrapAux_ne_nil m W ws (i + 1) w hw
      rw [show (line :: ([] : List String)).reverse = [line] from by simp]
      rw [joinSp_append [line] _ (by simp) hrest]
      rw [ih (i + 1) w (by omega) hw hws']
      simp [joinSp]
    · rename_i hcond
      rw [ih (i + 1) (line ++ " " ++ w) (by omega)
        (append_ne_empty_left _ _ (append_ne_empty_left _ _ hl)) hws']
      cases ws with
      | nil => simp [joinSp]
      | cons v vs => simp [joinSp, String.append_assoc]

/-- C8 amended: every emitted line either fits in the available width or is
one of the title's space-separated words (a single unbreakable word); and
for titles whose space-separated words are all nonempty (no leading,
trailing or doubled spaces) the lines joined with single spaces restore the
original word sequence, the final partial line included.  Titles with empty
words can drop them (see the counterexample), which is the only amendment. -/
theorem wrap_width_and_restore :
    (∀ (m : String → ℚ) (W : ℚ) (title : String) (L : String),
        L ∈ wrapLines m W title → m L ≤ W ∨ L ∈ jsSplit title ' ')
      ∧ (∀ (m : String → ℚ) (W : ℚ) (title : String),
          (∀ w ∈ jsSplit title ' ', w ≠ "") →
          joinSp (wrapLines m W title) = joinSp (jsSplit title ' ')) := by
  constructor
  · intro m W title L hL
    exact wrapAux_mem_bound m W (jsSplit title ' ') (jsSplit title ' ') 0 "" []
      (fun w hw => hw) (fun _ => rfl) (Or.inr (Or.inr ⟨rfl, rfl⟩))
      (by intro L' hL'; cases hL') L hL
  · intro m W title hne
    cases hws : jsSplit title ' ' with
    | nil => simp [wrapLines, hws, wrapAux, joinSp]
    | cons w ws =>
      have hw : w ≠ "" := hne w (hws ▸ List.mem_cons_self w ws)
      have hws' : ∀ x ∈ ws, x ≠ "" := fun x hx =>
        hne x (hws ▸ List.mem_cons_of_mem _ hx)
      simp only [wrapLines, hws]
      simp only [wrapAux]
      rw [if_neg (by simp)]
      show joinSp (wrapAux m W ws (0 + 1) w []) = joinSp (w :: ws)
      exact wrapAux_joinSp m W ws (0 + 1) w (by omega) hw hws'

/-- C8 witness: the two parts instantiated on the title "alpha beta" with a
constant-zero measurement at width 100 (one output line, "alpha beta"). -/
theorem wrap_width_and_restore_witness :
    ("alpha beta" ∈ wrapLines (fun _ => (0 : ℚ)) 100 "alpha beta"
      ∧ ((fun _ => (0 : ℚ)) "alpha beta" ≤ 100
        ∨ "alpha beta" ∈ jsSplit "alpha beta" ' '))
      ∧ ((∀ w ∈ jsSplit "alpha beta" ' ', w ≠ "")
        ∧ joinSp (wrapLines (fun _ => (0 : ℚ)) 100 "alpha beta")
            = joinSp (jsSplit "alpha beta" ' ')) := by
  have hmem : "alpha beta" ∈ wrapLines (fun _ => (0 : ℚ)) 100 "alpha beta" := by
    norm_num [wrapLines, wrapAux, jsSplit, splitChar]
    decide
  exact ⟨⟨hmem, wrap_width_and_restore.1 (fun _ => (0 : ℚ)) 100 "alpha beta"
      "alpha beta" hmem⟩,
    ⟨by decide, wrap_width_and_restore.2 (fun _ => (0 : ℚ)) 100 "alpha beta" (by decide)⟩⟩

/-- C8 counterexample: for the title `" y"` (leading space) the word split
is `["", "y"]` but the wrap emits just `["y"]`, so joining the lines yields
`"y"`, not the original word sequence `" y"` — the restoration half of the
claim fails for titles with empty words. -/
theorem wrap_leading_space_counterexample :
    joinSp (wrapLines (fun _ => (0 : ℚ)) 100 " y") = "y"
      ∧ joinSp (jsSplit " y" ' ') = " y"
      ∧ joinSp (wrapLines (fun _ => (0 : ℚ)) 100 " y") ≠ joinSp (jsSplit " y" ' ') := by
  have h1 : joinSp (wrapLines (fun _ => (0 : ℚ)) 100 " y") = "y" := by
    norm_num [wrapLines, wrapAux, jsSplit, splitChar, joinSp]
    decide
  have h2 : joinSp (jsSplit " y" ' ') = " y" := by decide
  refine ⟨h1, h2, ?_⟩
  rw [h1, h2]
  decide

end StravaGen
